import Mathlib

/-!
Shallow embedding of the superquote ledger bot (src/bot.py) and proofs about
its command grammar, update logic, deletion-confirmation state machine,
balance engine, running-balance series and identifier generator.

Conventions of the embedding:
* Python floats carrying money/odds values are modelled as rationals.
* Timestamps (the fixed-width strings produced by strftime, which the code
  orders lexicographically, an order that coincides with chronological order)
  are modelled as naturals.
* The MongoDB collection is modelled as a list of records in insertion order;
  a cursor sort is a stable sort, a query is a first-match search.
* Python string operations are modelled character-listwise so that every
  definition evaluates inside the kernel.
-/

/-- Python str.strip: drop whitespace from both ends of the string. -/
def pyStrip (s : String) : String :=
  String.mk (((s.data.dropWhile Char.isWhitespace).reverse.dropWhile Char.isWhitespace).reverse)

/-- Python str.upper on the ASCII command strings this bot handles:
uppercase each character. -/
def pyUpper (s : String) : String :=
  String.mk (s.data.map Char.toUpper)

/-- Split a character list at every character satisfying p, keeping empty
chunks (used to model the hyphen-delimited regular expressions of the
parser, whose capture groups cannot contain the delimiter). -/
def splitOnPred (p : Char → Bool) : List Char → List (List Char)
  | [] => [[]]
  | c :: cs =>
    let r := splitOnPred p cs
    if p c then [] :: r
    else
      match r with
      | [] => [[c]]
      | h :: t => (c :: h) :: t

/-- Split a string on the literal hyphen, keeping empty fields. -/
def splitHyphen (s : String) : List String :=
  (splitOnPred (fun c => c == '-') s.data).map String.mk

/-- Python str.split() with no argument: split on whitespace runs,
dropping empty fields. -/
def pySplitWs (s : String) : List String :=
  ((splitOnPred Char.isWhitespace s.data).filter (fun l => !l.isEmpty)).map String.mk

/-- One character of the regex class A-Z union 0-9 (the id alphabet after
the text has been upper-cased). -/
def isIdChar (c : Char) : Bool := c.isDigit || ('A' ≤ c && c ≤ 'Z')

/-- Does the token consist of exactly eight characters drawn from A-Z or
0-9, i.e. match the id capture group of the command regexes? -/
def isId8 (s : String) : Bool := s.data.length == 8 && s.data.all isIdChar

/-- Does the token match the numeric capture group of the command regexes:
one or more characters, each a digit or a dot? -/
def isNumTok (s : String) : Bool := !s.data.isEmpty && s.data.all (fun c => c.isDigit || c == '.')

/-- Does the token match a one-or-more capture group that excludes the
hyphen delimiter (the group is already hyphen-free after splitting)? -/
def nonEmptyTok (s : String) : Bool := !s.data.isEmpty

/-- Value of a list of decimal digit characters read left to right. -/
def digitsToNat (l : List Char) : Nat :=
  l.foldl (fun acc c => 10 * acc + (c.toNat - 48)) 0

/-- Digit-level core of the float() model: integer-part value,
fractional-part value and fractional length, failing on an empty string,
more than one dot, or no digit at all. -/
def pyFloatParts (s : String) : Option (Nat × Nat × Nat) :=
  let cs := s.data
  if cs.isEmpty then none
  else if !cs.all (fun c => c.isDigit || c == '.') then none
  else if 2 ≤ (cs.filter (fun c => c == '.')).length then none
  else if (cs.filter (fun c => c.isDigit)).length == 0 then none
  else
    let intPart := cs.takeWhile (fun c => !(c == '.'))
    let frac := (cs.dropWhile (fun c => !(c == '.'))).drop 1
    some (digitsToNat intPart, digitsToNat frac, frac.length)

/-- Python float() restricted to the strings the command grammar can feed
it (digits and dots): reads an unsigned decimal literal. Strings outside
this fragment are treated as conversion failures. -/
def pyFloat (s : String) : Option ℚ :=
  (pyFloatParts s).map (fun p => (p.1 : ℚ) + (p.2.1 : ℚ) / (10 ^ p.2.2 : ℚ))

/-- Outcome synonym normalization shared by all the parsing and update
paths of bot.py (the esito if/elif chains). -/
def normEsito (s : String) : Option String :=
  if s = "VINTA" ∨ s = "VINCITA" ∨ s = "WIN" ∨ s = "W" then some "VINTA"
  else if s = "PERSA" ∨ s = "PERDITA" ∨ s = "LOSS" ∨ s = "L" ∨ s = "PERSO" then some "PERSA"
  else none

/-- SuperquoteBot.calculate_winning_amount: payout is odds times stake on a
won ticket and zero otherwise. -/
def calculate_winning_amount (quota importo : ℚ) (esito : String) : ℚ :=
  if esito = "VINTA" then quota * importo else 0

/-- One stored superquote document (the dict built by parse_superquote and
persisted in the superquotes collection). -/
structure Record where
  quote_id : String
  risultato : String
  quota : ℚ
  importo : ℚ
  vincita : ℚ
  esito : String
  data : Nat
  data_modifica : Option Nat
deriving DecidableEq

/-- SuperquoteBot.parse_superquote: match the line against the pattern
SQ-risultato-quota-importo-esito (anchored, case-insensitive, the numeric
groups restricted to digits and dots), normalize the outcome, convert the
numbers and build the record. The generated id and the current time are
passed in as parameters. -/
def parse_superquote (qid : String) (now : Nat) (text : String) : Option Record :=
  match splitHyphen (pyStrip text) with
  | [p0, p1, p2, p3, p4] =>
    if pyUpper p0 == "SQ" && nonEmptyTok p1 && isNumTok p2 && isNumTok p3 && nonEmptyTok p4 then
      match pyFloat p2, pyFloat p3, normEsito (pyUpper p4) with
      | some quota, some importo, some esito =>
        some { quote_id := qid, risultato := pyUpper p1, quota := quota, importo := importo,
               vincita := calculate_winning_amount quota importo esito,
               esito := esito, data := now, data_modifica := none }
      | _, _, _ => none
    else none
  | _ => none

/-- Which of the three modify formats matched (the tipo field of the dict
returned by parse_modify_command). -/
inductive ModTipo where
  | semplice
  | completo
  | campo_singolo
deriving DecidableEq

/-- The updates dict built by parse_modify_command and consumed by
update_superquote: at most one value per record field, every value still a
raw string at this stage. -/
structure Updates where
  risultato : Option String := none
  quota : Option String := none
  importo : Option String := none
  esito : Option String := none
deriving DecidableEq

/-- The dict returned by parse_modify_command on success. -/
structure ModifyCmd where
  quote_id : String
  updates : Updates
  tipo : ModTipo
deriving DecidableEq

/-- The single-field updates dict keyed by the matched field name
(parse_modify_command builds it as a one-entry dict). -/
def mkSingleUpdate (campo : String) (val : String) : Updates :=
  if campo == "RISULTATO" then { risultato := some val }
  else if campo == "QUOTA" then { quota := some val }
  else if campo == "IMPORTO" then { importo := some val }
  else { esito := some val }

/-- The field alternation of the single-field pattern, in alternation
order. -/
def fieldNames : List String := ["RISULTATO", "QUOTA", "IMPORTO", "ESITO"]

/-- Tail of parse_modify_command for the single-field pattern
MODIFICA-id-FIELD=value: the value may contain hyphens but is nonempty and
(because the dot of the pattern does not cross lines) contains no newline. -/
def matchFieldBody (qid : String) (body : List Char) : Option ModifyCmd :=
  match fieldNames.find? (fun f => body.take (f.data.length + 1) == (f ++ "=").data) with
  | some f =>
    let val := body.drop (f.data.length + 1)
    if !val.isEmpty && val.all (fun c => !(c == '\n')) then
      some { quote_id := qid, updates := mkSingleUpdate f (String.mk val), tipo := .campo_singolo }
    else none
  | none => none

/-- The single-field pattern of parse_modify_command. -/
def matchField (tc : String) : Option ModifyCmd :=
  let cs := tc.data
  if cs.take 9 == "MODIFICA-".data then
    let qid := (cs.drop 9).take 8
    let rest := cs.drop 17
    if isId8 (String.mk qid) && rest.take 1 == ['-'] then
      matchFieldBody (String.mk qid) (rest.drop 1)
    else none
  else none

/-- The full pattern MODIFICA-id-risultato-quota-importo-esito of
parse_modify_command; on a pattern match with an unrecognized outcome the
function returns None without trying the single-field pattern. -/
def matchFull (tc : String) : Option ModifyCmd :=
  match splitHyphen tc with
  | [m, qid, ris, q, imp, es] =>
    if m == "MODIFICA" && isId8 qid && nonEmptyTok ris && isNumTok q && isNumTok imp
        && nonEmptyTok es then
      match normEsito es with
      | some e =>
        some { quote_id := qid,
               updates := { risultato := some ris, quota := some q, importo := some imp,
                            esito := some e },
               tipo := .completo }
      | none => none
    else matchField tc
  | _ => matchField tc

/-- SuperquoteBot.parse_modify_command: try the simple pattern
MODIFICA-id-esito first; on a pattern match with an unrecognized outcome
return None at once (without trying the later patterns, exactly as the
source does); otherwise fall through to the full and then the single-field
pattern. -/
def parse_modify_command (text : String) : Option ModifyCmd :=
  let tc := pyUpper (pyStrip text)
  match splitHyphen tc with
  | [m, qid, es] =>
    if m == "MODIFICA" && isId8 qid && nonEmptyTok es then
      match normEsito es with
      | some e => some { quote_id := qid, updates := { esito := some e }, tipo := .semplice }
      | none => none
    else matchFull tc
  | _ => matchFull tc

/-- SuperquoteBot.find_superquote_by_id: first record of the collection
whose quote_id equals the upper-cased argument. -/
def find_superquote_by_id (store : List Record) (qid : String) : Option Record :=
  store.find? (fun r => r.quote_id == pyUpper qid)

/-- SuperquoteBot.delete_superquote: delete_one removes the first record
matching the upper-cased id; the boolean reports whether deleted_count was
positive. -/
def delete_superquote : List Record → String → Bool × List Record
  | [], _ => (false, [])
  | r :: rs, qid =>
    if r.quote_id == pyUpper qid then (true, rs)
    else
      let res := delete_superquote rs qid
      (res.1, r :: res.2)

/-- Replace the first record matching the upper-cased id (the effect of
update_one with a set-fields document). -/
def replaceFirstById : List Record → String → Record → List Record
  | [], _, _ => []
  | r :: rs, qid, newRec =>
    if r.quote_id == pyUpper qid then newRec :: rs
    else r :: replaceFirstById rs qid newRec

/-- Field-application core of SuperquoteBot.update_superquote: convert the
present string values (float conversion failures and unrecognized outcome
values abort the whole update), overlay them on the existing record,
recompute the payout from the resulting odds, stake and outcome whenever
any of the three is present in the update set, and stamp data_modifica. -/
def applyUpdate (existing : Record) (upd : Updates) (now : Nat) : Option Record :=
  let quotaConv : Option (Option ℚ) :=
    match upd.quota with
    | none => some none
    | some s => (pyFloat s).map some
  let importoConv : Option (Option ℚ) :=
    match upd.importo with
    | none => some none
    | some s => (pyFloat s).map some
  let esitoConv : Option (Option String) :=
    match upd.esito with
    | none => some none
    | some s => (normEsito (pyUpper s)).map some
  match quotaConv, importoConv, esitoConv with
  | some qOpt, some iOpt, some eOpt =>
    let touched := upd.quota.isSome || upd.importo.isSome || upd.esito.isSome
    let fq := qOpt.getD existing.quota
    let fi := iOpt.getD existing.importo
    let fe := eOpt.getD existing.esito
    some { existing with
           risultato := upd.risultato.getD existing.risultato
           quota := fq
           importo := fi
           esito := fe
           vincita := if touched then calculate_winning_amount fq fi fe else existing.vincita
           data_modifica := some now }
  | _, _, _ => none

/-- The record an update produces, defaulting to the existing record when
the update aborts (a convenience projection of applyUpdate). -/
def updatedRec (existing : Record) (upd : Updates) (now : Nat) : Record :=
  (applyUpdate existing upd now).getD existing

/-- SuperquoteBot.update_superquote: look the record up, apply the present
fields, write the result back over the first matching document, and report
whether a document was matched and actually changed (modified_count of
update_one is positive exactly when the set fields differ from the stored
ones). -/
def update_superquote (store : List Record) (qid : String) (upd : Updates) (now : Nat) :
    Bool × List Record :=
  match find_superquote_by_id store qid with
  | none => (false, store)
  | some existing =>
    match applyUpdate existing upd now with
    | none => (false, store)
    | some newRec => (decide (newRec ≠ existing), replaceFirstById store qid newRec)

/-- The balance dict computed by SuperquoteBot.calculate_balance. -/
structure BalanceData where
  saldo : ℚ
  total_bet : ℚ
  total_winnings : ℚ
  total_losses : ℚ
  wins : Nat
  losses : Nat
  total_bets : Nat
deriving DecidableEq

/-- Aggregation body of SuperquoteBot.calculate_balance over the record
list it is handed. -/
def calcBalanceOn (l : List Record) : BalanceData :=
  let total_bet := (l.map (fun sq => sq.importo)).sum
  let total_winnings := ((l.filter (fun sq => sq.esito == "VINTA")).map (fun sq => sq.vincita)).sum
  let total_losses := ((l.filter (fun sq => sq.esito == "PERSA")).map (fun sq => sq.importo)).sum
  { saldo := total_winnings - total_bet
    total_bet := total_bet
    total_winnings := total_winnings
    total_losses := total_losses
    wins := (l.filter (fun sq => sq.esito == "VINTA")).length
    losses := (l.filter (fun sq => sq.esito == "PERSA")).length
    total_bets := l.length }

/-- Stable descending insertion by the data field: an earlier-inserted
record stays in front of later records carrying the same timestamp. -/
def insertByDataDesc (r : Record) : List Record → List Record
  | [] => [r]
  | x :: xs => if r.data < x.data then x :: insertByDataDesc r xs else r :: x :: xs

/-- Stable sort of the collection by data descending (the cursor sort of
get_all_superquotes). -/
def sortByDataDesc : List Record → List Record
  | [] => []
  | x :: xs => insertByDataDesc x (sortByDataDesc xs)

/-- SuperquoteBot.get_all_superquotes: sort the collection by data
descending, cap the cursor at 1000 documents, and degrade to an empty list
when the read fails. -/
def get_all_superquotes (fetch : Except String (List Record)) : List Record :=
  match fetch with
  | .ok store => (sortByDataDesc store).take 1000
  | .error _ => []

/-- SuperquoteBot.calculate_balance: aggregate over whatever
get_all_superquotes returned. -/
def calculate_balance (fetch : Except String (List Record)) : BalanceData :=
  calcBalanceOn (get_all_superquotes fetch)

/-- The all-zero balance dict of the error branch of calculate_balance. -/
def zeroBalance : BalanceData :=
  { saldo := 0, total_bet := 0, total_winnings := 0, total_losses := 0,
    wins := 0, losses := 0, total_bets := 0 }

/-- The success-percentage line of SuperquoteBot.show_stats, computed only
when at least one record exists. -/
def percentualeSuccesso (l : List Record) : Option ℚ :=
  let b := calcBalanceOn l
  if 0 < b.total_bets then some (((b.wins : ℚ) / (b.total_bets : ℚ)) * 100) else none

/-- Stable ascending insertion by the data field: an earlier record stays
in front of later records carrying the same timestamp. -/
def insertByDataAsc (r : Record) : List Record → List Record
  | [] => [r]
  | x :: xs => if x.data < r.data then x :: insertByDataAsc r xs else r :: x :: xs

/-- Stable ascending sort by the data field, the model of the Python
sorted call of generate_profit_graph. -/
def sortByDataAsc : List Record → List Record
  | [] => []
  | x :: xs => insertByDataAsc x (sortByDataAsc xs)

/-- One step of the cumulative-balance loop of generate_profit_graph: a
won ticket adds its net winnings, any other ticket subtracts its stake. -/
def balanceStep (bal : ℚ) (sq : Record) : ℚ :=
  if sq.esito == "VINTA" then bal + (sq.vincita - sq.importo) else bal - sq.importo

/-- The (timestamp, running balance) pairs emitted by the loop of
generate_profit_graph, starting from the given balance. -/
def seriesFrom (bal : ℚ) : List Record → List (Nat × ℚ)
  | [] => []
  | sq :: rest => (sq.data, balanceStep bal sq) :: seriesFrom (balanceStep bal sq) rest

/-- The running-balance series of generate_profit_graph over the record
list it is handed: sort ascending by the data field, then scan from
balance zero. -/
def profitSeries (l : List Record) : List (Nat × ℚ) :=
  seriesFrom 0 (sortByDataAsc l)

/-- The replies of the CONFERMA branch of handle_message. -/
inductive ConfReply where
  | deleted (qid : String)
  | deleteError
  | invalidOrExpired
  | invalidFormat
deriving DecidableEq

/-- The CONFERMA branch of SuperquoteBot.handle_message: the upper-cased
message must split into exactly two whitespace-separated tokens and the
chat must own a pending-deletions dict; the second token must be a pending
id; the store delete is then invoked and the pending entry is dropped only
when the delete reported success. Returns the reply, the new pending
state and the new store. -/
def handle_conferma (msg : String) (pending : Option (List (String × Record)))
    (store : List Record) :
    ConfReply × Option (List (String × Record)) × List Record :=
  match pending, pySplitWs (pyUpper msg) with
  | some pd, [_, qid] =>
    if (pd.find? (fun p => p.1 == qid)).isSome then
      let res := delete_superquote store qid
      if res.1 then (.deleted qid, some (pd.eraseP (fun p => p.1 == qid)), res.2)
      else (.deleteError, some pd, res.2)
    else (.invalidOrExpired, some pd, store)
  | _, _ => (.invalidFormat, pending, store)

/-- A lowercase hexadecimal digit character. -/
def hexCharLower (n : Nat) : Char :=
  if n < 10 then Char.ofNat (48 + n) else Char.ofNat (87 + n)

/-- An uppercase hexadecimal digit character. -/
def upperHexChar (n : Nat) : Char :=
  if n < 10 then Char.ofNat (48 + n) else Char.ofNat (55 + n)

/-- The 32 hexadecimal digits of a 128-bit uuid value, most significant
first. -/
def uuidHexDigits (n : Nat) : List Char :=
  (List.range 32).map (fun i => hexCharLower (n / 16 ^ (31 - i) % 16))

/-- Canonical str() rendering of a uuid: the 32 lowercase hexadecimal
digits in five hyphen-separated groups of 8, 4, 4, 4 and 12. -/
def uuid4String (n : Nat) : String :=
  let d := uuidHexDigits n
  String.mk (d.take 8 ++ ('-' :: ((d.drop 8).take 4 ++ ('-' :: ((d.drop 12).take 4
    ++ ('-' :: ((d.drop 16).take 4 ++ ('-' :: d.drop 20))))))))

/-- Python string slicing from the start: the first k characters. -/
def pySlice (k : Nat) (s : String) : String := String.mk (s.data.take k)

/-- SuperquoteBot.generate_quote_id: the first eight characters of the
uuid string, upper-cased; the 128-bit random draw is passed in as a
parameter. -/
def generate_quote_id (n : Nat) : String := pyUpper (pySlice 8 (uuid4String n))

/-- Eight-uppercase-hexadecimal-digit rendering of a value below 16 to the
eighth power, most significant digit first. -/
def upperHex8 (k : Nat) : String :=
  String.mk ((List.range 8).map (fun i => upperHexChar (k / 16 ^ (7 - i) % 16)))

/-- The won example record of the spec: stake 10 at odds 2, won. -/
def exWon : Record :=
  { quote_id := "AAAA0001", risultato := "1MILAN", quota := 2, importo := 10,
    vincita := 20, esito := "VINTA", data := 1, data_modifica := none }

/-- The lost example record of the spec: stake 15 at odds 1.85, lost. -/
def exLost : Record :=
  { quote_id := "AAAA0002", risultato := "OVER2.5", quota := 37 / 20, importo := 15,
    vincita := 0, esito := "PERSA", data := 2, data_modifica := none }

/-- A stored record used by the concrete update and deletion scenarios. -/
def exStored : Record :=
  { quote_id := "A1B2C3D4", risultato := "1MILAN", quota := 2, importo := 10,
    vincita := 20, esito := "VINTA", data := 3, data_modifica := none }

/-- A single-field update set carrying a new odds value. -/
def exQuotaUpd : Updates := { quota := some "2.50" }

/-- First record of the series witness: won, timestamp 1. -/
def serA : Record :=
  { quote_id := "S0000001", risultato := "A", quota := 2, importo := 10,
    vincita := 20, esito := "VINTA", data := 1, data_modifica := none }

/-- Second record of the series witness: lost, timestamp 2. -/
def serB : Record :=
  { quote_id := "S0000002", risultato := "B", quota := 3, importo := 5,
    vincita := 0, esito := "PERSA", data := 2, data_modifica := none }

/-- Third record of the series witness: lost, sharing timestamp 1 with
the first. -/
def serC : Record :=
  { quote_id := "S0000003", risultato := "C", quota := 4, importo := 7,
    vincita := 0, esito := "PERSA", data := 1, data_modifica := none }

/-- A unit-stake record used to exhibit the cursor cap. -/
def capRec : Record :=
  { quote_id := "CAP00000", risultato := "X", quota := 2, importo := 1,
    vincita := 0, esito := "PERSA", data := 1, data_modifica := none }

/-- Evaluation rule for the float model in terms of its digit-level core. -/
theorem pyFloat_eq (s : String) (a b k : Nat) (h : pyFloatParts s = some (a, b, k)) :
    pyFloat s = some ((a : ℚ) + (b : ℚ) / (10 ^ k : ℚ)) := by
  simp [pyFloat, h]

/-- Evaluation fact: the odds token of the first worked example. -/
theorem pyFloat_two : pyFloat "2.00" = some 2 := by
  have h := pyFloat_eq "2.00" 2 0 2 (by decide)
  norm_num at h
  exact h

/-- Evaluation fact: the stake token of the first worked example. -/
theorem pyFloat_ten : pyFloat "10.00" = some 10 := by
  have h := pyFloat_eq "10.00" 10 0 2 (by decide)
  norm_num at h
  exact h

/-- Evaluation fact: the odds token of the second worked example. -/
theorem pyFloat_oneEightFive : pyFloat "1.85" = some (37 / 20) := by
  have h := pyFloat_eq "1.85" 1 85 2 (by decide)
  norm_num at h
  exact h

/-- Evaluation fact: the stake token of the second worked example. -/
theorem pyFloat_fifteen : pyFloat "15.00" = some 15 := by
  have h := pyFloat_eq "15.00" 15 0 2 (by decide)
  norm_num at h
  exact h

/-- Evaluation rule for the add parser once the line has split into its
five capture groups and the groups have converted. -/
theorem parse_superquote_parts_eq (qid : String) (now : Nat)
    (text p0 p1 p2 p3 p4 : String) (q i : ℚ) (e : String)
    (hsplit : splitHyphen (pyStrip text) = [p0, p1, p2, p3, p4])
    (hguard : (pyUpper p0 == "SQ" && nonEmptyTok p1 && isNumTok p2 && isNumTok p3
      && nonEmptyTok p4) = true)
    (hq : pyFloat p2 = some q) (hi : pyFloat p3 = some i)
    (he : normEsito (pyUpper p4) = some e) :
    parse_superquote qid now text =
      some { quote_id := qid, risultato := pyUpper p1, quota := q, importo := i,
             vincita := calculate_winning_amount q i e, esito := e, data := now,
             data_modifica := none } := by
  unfold parse_superquote
  rw [hsplit]
  simp only [hguard, if_true, hq, hi, he]

/-- C4: every successfully parsed add line yields a record whose payout
equals odds times stake when the outcome normalized to WON and zero
otherwise; in particular the two worked example lines of the spec parse
to records with payout 20 and payout 0 respectively. -/
theorem parse_superquote_payout :
    (∀ qid now text r, parse_superquote qid now text = some r →
        r.vincita = (if r.esito = "VINTA" then r.quota * r.importo else 0)) ∧
    (∀ qid now, parse_superquote qid now "SQ-1MILAN-2.00-10.00-VINTA" =
        some { quote_id := qid, risultato := "1MILAN", quota := 2, importo := 10,
               vincita := 20, esito := "VINTA", data := now, data_modifica := none }) ∧
    (∀ qid now, parse_superquote qid now "SQ-OVER2.5-1.85-15.00-PERSA" =
        some { quote_id := qid, risultato := "OVER2.5", quota := 37 / 20, importo := 15,
               vincita := 0, esito := "PERSA", data := now, data_modifica := none }) := by
  refine ⟨?_, ?_, ?_⟩
  · intro qid now text r h
    unfold parse_superquote at h
    split at h
    · split at h
      · split at h
        · rw [Option.some.injEq] at h
          subst h
          simp [calculate_winning_amount]
        · exact absurd h (by simp)
      · exact absurd h (by simp)
    · exact absurd h (by simp)
  · intro qid now
    rw [parse_superquote_parts_eq qid now _ "SQ" "1MILAN" "2.00" "10.00" "VINTA" 2 10 "VINTA"
      (by decide) (by decide) pyFloat_two pyFloat_ten (by decide)]
    simp [calculate_winning_amount]
    constructor
    · decide
    · norm_num
  · intro qid now
    rw [parse_superquote_parts_eq qid now _ "SQ" "OVER2.5" "1.85" "15.00" "PERSA" (37 / 20) 15
      "PERSA" (by decide) (by decide) pyFloat_oneEightFive pyFloat_fifteen (by decide)]
    simp [calculate_winning_amount]
    decide

/-- Witness for C4 at the first worked example line. -/
theorem parse_superquote_payout_witness :
    (Record.mk "A1B2C3D4" "1MILAN" 2 10 20 "VINTA" 7 none).vincita =
      (if (Record.mk "A1B2C3D4" "1MILAN" 2 10 20 "VINTA" 7 none).esito = "VINTA" then
        (Record.mk "A1B2C3D4" "1MILAN" 2 10 20 "VINTA" 7 none).quota *
          (Record.mk "A1B2C3D4" "1MILAN" 2 10 20 "VINTA" 7 none).importo
       else 0) :=
  parse_superquote_payout.1 "A1B2C3D4" 7 "SQ-1MILAN-2.00-10.00-VINTA" _
    (parse_superquote_payout.2.1 "A1B2C3D4" 7)

/-- C1 (divergence evidence): the four single-field modify lines shown by
the bot's own docstring and help text are all rejected by the parser: each
value is hyphen-free, so the simple pattern MODIFICA-id-esito matches
first and its failed outcome normalization returns None before the
single-field pattern is ever tried. -/
theorem parse_modify_single_field_rejected :
    parse_modify_command "MODIFICA-A1B2C3D4-QUOTA=2.50" = none ∧
    parse_modify_command "MODIFICA-A1B2C3D4-IMPORTO=20.00" = none ∧
    parse_modify_command "MODIFICA-A1B2C3D4-RISULTATO=OVER2.5" = none ∧
    parse_modify_command "MODIFICA-A1B2C3D4-ESITO=VINTA" = none := by
  refine ⟨?_, ?_, ?_, ?_⟩ <;> decide

/-- C9: when the store read fails, calculate_balance returns the all-zero
snapshot, the same snapshot an empty ledger produces. -/
theorem calculate_balance_store_error (e : String) :
    calculate_balance (.error e) = zeroBalance ∧
    calculate_balance (.error e) = calculate_balance (.ok []) := by
  constructor <;>
    simp [calculate_balance, get_all_superquotes, calcBalanceOn, zeroBalance, sortByDataDesc]

/-- C6: the balance snapshot sums stakes over all records handed to it,
sums payouts over the won ones, takes the net balance as their difference
and the success rate as wins over total records; the two worked example
records give total stake 25, total return 20, net balance -5 and win rate
one half (a 50 percent success line). -/
theorem calcBalance_formulas :
    (∀ l, (calcBalanceOn l).total_bet = (l.map (fun sq => sq.importo)).sum ∧
      (calcBalanceOn l).total_winnings =
        ((l.filter (fun sq => sq.esito == "VINTA")).map (fun sq => sq.vincita)).sum ∧
      (calcBalanceOn l).saldo = (calcBalanceOn l).total_winnings - (calcBalanceOn l).total_bet ∧
      (calcBalanceOn l).wins = (l.filter (fun sq => sq.esito == "VINTA")).length ∧
      (calcBalanceOn l).total_bets = l.length ∧
      percentualeSuccesso l =
        (if 0 < l.length then
          some ((((calcBalanceOn l).wins : ℚ) / (l.length : ℚ)) * 100) else none)) ∧
    (calcBalanceOn [exWon, exLost]).total_bet = 25 ∧
    (calcBalanceOn [exWon, exLost]).total_winnings = 20 ∧
    (calcBalanceOn [exWon, exLost]).saldo = -5 ∧
    ((calcBalanceOn [exWon, exLost]).wins : ℚ) / ((calcBalanceOn [exWon, exLost]).total_bets : ℚ)
      = 1 / 2 ∧
    percentualeSuccesso [exWon, exLost] = some 50 := by
  refine ⟨fun l => ⟨rfl, rfl, rfl, rfl, rfl, rfl⟩, ?_, ?_, ?_, ?_, ?_⟩ <;>
    simp [calcBalanceOn, percentualeSuccesso, exWon, exLost] <;> norm_num

/-- Upper-casing a lowercase hexadecimal digit gives the uppercase one. -/
theorem toUpper_hexCharLower (d : Nat) (h : d < 16) :
    Char.toUpper (hexCharLower d) = upperHexChar d := by
  revert d h
  decide

/-- Every uppercase hexadecimal digit is a digit or a letter between A
and F. -/
theorem upperHexChar_isHex (d : Nat) (h : d < 16) :
    ((upperHexChar d).isDigit || ('A' ≤ upperHexChar d && upperHexChar d ≤ 'F')) = true := by
  revert d h
  decide

/-- Digit extraction commutes with restricting to the top 32 bits: the
i-th hexadecimal digit of the truncated top eight digits is the (31-i)-th
digit of the full value. -/
theorem hexDigit_shift (n i : Nat) (h : i < 8) :
    n / 16 ^ 24 % 16 ^ 8 / 16 ^ (7 - i) % 16 = n / 16 ^ (31 - i) % 16 := by
  have h1 : (16 : Nat) ^ 8 = 16 ^ (7 - i) * 16 ^ (1 + i) := by
    rw [← pow_add]
    congr 1
    omega
  rw [h1, Nat.mod_mul_right_div_self,
    Nat.mod_mod_of_dvd _ (dvd_pow_self 16 (by omega : 1 + i ≠ 0)),
    Nat.div_div_eq_div_mul, ← pow_add]
  have h2 : 24 + (7 - i) = 31 - i := by omega
  rw [h2]

/-- The character data of a generated id: the top eight hexadecimal digits
of the draw, upper-cased. -/
theorem generate_quote_id_data (n : Nat) :
    (generate_quote_id n).data =
      (List.range 8).map (fun i => Char.toUpper (hexCharLower (n / 16 ^ (31 - i) % 16))) := by
  have h8 : ((List.range 32).map (fun i => hexCharLower (n / 16 ^ (31 - i) % 16))).take 8 =
      (List.range 8).map (fun i => hexCharLower (n / 16 ^ (31 - i) % 16)) := by
    rw [← List.map_take, List.take_range]
    norm_num
  have hlen : (((List.range 32).map
      (fun i => hexCharLower (n / 16 ^ (31 - i) % 16))).take 8).length = 8 := by
    rw [h8]
    simp
  simp only [generate_quote_id, pyUpper, pySlice, uuid4String, uuidHexDigits]
  rw [List.take_left' hlen, h8, List.map_map]
  simp [Function.comp]

/-- C10: every generated id has exactly eight characters, each an
uppercase hexadecimal digit, and equals the eight-uppercase-hex-digit
rendering of the top 32 bits of the 128-bit draw, so the generator ranges
over at most 16 to the eighth power distinct values. -/
theorem generate_quote_id_spec (n : Nat) :
    (generate_quote_id n).length = 8 ∧
    ((generate_quote_id n).data.all
      (fun c => c.isDigit || ('A' ≤ c && c ≤ 'F'))) = true ∧
    generate_quote_id n = upperHex8 (n / 16 ^ 24 % 16 ^ 8) ∧
    n / 16 ^ 24 % 16 ^ 8 < 16 ^ 8 := by
  have hdata := generate_quote_id_data n
  refine ⟨?_, ?_, ?_, Nat.mod_lt _ (by norm_num)⟩
  · show (generate_quote_id n).data.length = 8
    rw [hdata]
    simp
  · rw [hdata, List.all_eq_true]
    intro c hc
    rw [List.mem_map] at hc
    obtain ⟨i, _, rfl⟩ := hc
    rw [toUpper_hexCharLower _ (Nat.mod_lt _ (by norm_num))]
    exact upperHexChar_isHex _ (Nat.mod_lt _ (by norm_num))
  · have : (generate_quote_id n).data = (upperHex8 (n / 16 ^ 24 % 16 ^ 8)).data := by
      rw [hdata]
      simp only [upperHex8]
      apply List.map_congr_left
      intro i hi
      rw [List.mem_range] at hi
      rw [toUpper_hexCharLower _ (Nat.mod_lt _ (by norm_num)), hexDigit_shift n i hi]
    cases hgen : generate_quote_id n
    cases hup : upperHex8 (n / 16 ^ 24 % 16 ^ 8)
    rw [hgen, hup] at this
    exact congrArg String.mk (by simpa using this)

/-- C5: an update whose change set touches odds, stake or outcome applies
exactly the fields present, recomputes the payout from the resulting full
record (falling back to the stored values for absent fields), stamps the
modification time, writes the result over the first matching document and
reports whether the record was matched and actually changed. -/
theorem update_superquote_spec (store : List Record) (qid : String) (upd : Updates)
    (now : Nat) (existing : Record)
    (hfind : find_superquote_by_id store qid = some existing)
    (htouch : (upd.quota.isSome || upd.importo.isSome || upd.esito.isSome) = true)
    (hq : ∀ s, upd.quota = some s → (pyFloat s).isSome = true)
    (hi : ∀ s, upd.importo = some s → (pyFloat s).isSome = true)
    (he : ∀ s, upd.esito = some s → (normEsito (pyUpper s)).isSome = true) :
    (applyUpdate existing upd now).isSome = true ∧
    update_superquote store qid upd now =
      (decide (updatedRec existing upd now ≠ existing),
        replaceFirstById store qid (updatedRec existing upd now)) ∧
    (updatedRec existing upd now).vincita =
      calculate_winning_amount (updatedRec existing upd now).quota
        (updatedRec existing upd now).importo (updatedRec existing upd now).esito ∧
    (updatedRec existing upd now).data_modifica = some now ∧
    (updatedRec existing upd now).quote_id = existing.quote_id ∧
    (updatedRec existing upd now).data = existing.data ∧
    (updatedRec existing upd now).risultato = upd.risultato.getD existing.risultato ∧
    (updatedRec existing upd now).quota = (upd.quota.bind pyFloat).getD existing.quota ∧
    (updatedRec existing upd now).importo = (upd.importo.bind pyFloat).getD existing.importo ∧
    (updatedRec existing upd now).esito =
      ((upd.esito.map pyUpper).bind normEsito).getD existing.esito := by
  obtain ⟨ris, qo, io, eo⟩ := upd
  rcases qo with _ | us <;> rcases io with _ | vs <;> rcases eo with _ | ws
  · simp at htouch
  · obtain ⟨e2, he2⟩ := Option.isSome_iff_exists.mp (he _ rfl)
    simp_all [update_superquote, applyUpdate, updatedRec, hfind, calculate_winning_amount]
  · obtain ⟨i2, hi2⟩ := Option.isSome_iff_exists.mp (hi _ rfl)
    simp_all [update_superquote, applyUpdate, updatedRec, hfind, calculate_winning_amount]
  · obtain ⟨i2, hi2⟩ := Option.isSome_iff_exists.mp (hi _ rfl)
    obtain ⟨e2, he2⟩ := Option.isSome_iff_exists.mp (he _ rfl)
    simp_all [update_superquote, applyUpdate, updatedRec, hfind, calculate_winning_amount]
  · obtain ⟨q2, hq2⟩ := Option.isSome_iff_exists.mp (hq _ rfl)
    simp_all [update_superquote, applyUpdate, updatedRec, hfind, calculate_winning_amount]
  · obtain ⟨q2, hq2⟩ := Option.isSome_iff_exists.mp (hq _ rfl)
    obtain ⟨e2, he2⟩ := Option.isSome_iff_exists.mp (he _ rfl)
    simp_all [update_superquote, applyUpdate, updatedRec, hfind, calculate_winning_amount]
  · obtain ⟨q2, hq2⟩ := Option.isSome_iff_exists.mp (hq _ rfl)
    obtain ⟨i2, hi2⟩ := Option.isSome_iff_exists.mp (hi _ rfl)
    simp_all [update_superquote, applyUpdate, updatedRec, hfind, calculate_winning_amount]
  · obtain ⟨q2, hq2⟩ := Option.isSome_iff_exists.mp (hq _ rfl)
    obtain ⟨i2, hi2⟩ := Option.isSome_iff_exists.mp (hi _ rfl)
    obtain ⟨e2, he2⟩ := Option.isSome_iff_exists.mp (he _ rfl)
    simp_all [update_superquote, applyUpdate, updatedRec, hfind, calculate_winning_amount]

/-- Witness for C5: a concrete single-field odds update against a
one-record store. -/
theorem update_superquote_spec_witness :
    (applyUpdate exStored exQuotaUpd 5).isSome = true ∧
    update_superquote [exStored] "a1b2c3d4" exQuotaUpd 5 =
      (decide (updatedRec exStored exQuotaUpd 5 ≠ exStored),
        replaceFirstById [exStored] "a1b2c3d4" (updatedRec exStored exQuotaUpd 5)) ∧
    (updatedRec exStored exQuotaUpd 5).vincita =
      calculate_winning_amount (updatedRec exStored exQuotaUpd 5).quota
        (updatedRec exStored exQuotaUpd 5).importo (updatedRec exStored exQuotaUpd 5).esito ∧
    (updatedRec exStored exQuotaUpd 5).data_modifica = some 5 ∧
    (updatedRec exStored exQuotaUpd 5).quote_id = exStored.quote_id ∧
    (updatedRec exStored exQuotaUpd 5).data = exStored.data ∧
    (updatedRec exStored exQuotaUpd 5).risultato = exQuotaUpd.risultato.getD exStored.risultato ∧
    (updatedRec exStored exQuotaUpd 5).quota = (exQuotaUpd.quota.bind pyFloat).getD exStored.quota ∧
    (updatedRec exStored exQuotaUpd 5).importo =
      (exQuotaUpd.importo.bind pyFloat).getD exStored.importo ∧
    (updatedRec exStored exQuotaUpd 5).esito =
      ((exQuotaUpd.esito.map pyUpper).bind normEsito).getD exStored.esito :=
  update_superquote_spec [exStored] "a1b2c3d4" exQuotaUpd 5 exStored rfl (by decide)
    (fun s hs => by
      simp only [exQuotaUpd] at hs
      cases hs
      decide)
    (fun s hs => by simp [exQuotaUpd] at hs)
    (fun s hs => by simp [exQuotaUpd] at hs)

/-- C2 counterexample: a confirm for a pending id whose store delete
fails (here the record is already gone from the store, so deleted_count
is zero) keeps the pending entry, so the pending entry is not removed
when the store outcome is failure. -/
theorem confirm_failed_delete_keeps_pending :
    handle_conferma "CONFERMA A1B2C3D4" (some [("A1B2C3D4", exStored)]) [] =
      (.deleteError, some [("A1B2C3D4", exStored)], []) ∧
    (handle_conferma "CONFERMA A1B2C3D4" (some [("A1B2C3D4", exStored)]) []).2.1 ≠ some [] := by
  refine ⟨rfl, ?_⟩
  intro h
  exact List.cons_ne_nil _ _ (Option.some.inj h)

/-- Reduction of the confirm handler when the id is pending: the delete
is invoked and the pending entry is dropped exactly on delete success. -/
theorem handle_conferma_pending (msg : String) (store : List Record)
    (pd : List (String × Record)) (c qid : String)
    (hsplit : pySplitWs (pyUpper msg) = [c, qid])
    (hmem : (pd.find? (fun p => p.1 == qid)).isSome = true) :
    handle_conferma msg (some pd) store =
      (if (delete_superquote store qid).1 = true
        then ((.deleted qid : ConfReply), some (pd.eraseP (fun p => p.1 == qid)),
          (delete_superquote store qid).2)
        else (.deleteError, some pd, (delete_superquote store qid).2)) := by
  unfold handle_conferma
  rw [hsplit]
  change (if (pd.find? (fun p => p.1 == qid)).isSome = true then
      let res := delete_superquote store qid
      if res.1 = true then
        ((.deleted qid : ConfReply), some (pd.eraseP (fun p => p.1 == qid)), res.2)
      else (.deleteError, some pd, res.2)
    else ((.invalidOrExpired : ConfReply), some pd, store)) = _
  rw [if_pos hmem]

/-- Reduction of the confirm handler when the id is not pending: an error
reply, nothing else changes. -/
theorem handle_conferma_not_pending (msg : String) (store : List Record)
    (pd : List (String × Record)) (c qid : String)
    (hsplit : pySplitWs (pyUpper msg) = [c, qid])
    (hnone : pd.find? (fun p => p.1 == qid) = none) :
    handle_conferma msg (some pd) store = (.invalidOrExpired, some pd, store) := by
  unfold handle_conferma
  rw [hsplit]
  change (if (pd.find? (fun p => p.1 == qid)).isSome = true then
      let res := delete_superquote store qid
      if res.1 = true then
        ((.deleted qid : ConfReply), some (pd.eraseP (fun p => p.1 == qid)), res.2)
      else (.deleteError, some pd, res.2)
    else ((.invalidOrExpired : ConfReply), some pd, store)) = _
  rw [if_neg]
  rw [hnone]
  simp

/-- C2 amended: on a confirm for a pending id the store delete is invoked
and the pending entry is removed exactly when the delete reported
success; on a failed delete the entry is retained. -/
theorem confirm_removes_pending_iff_delete_succeeds (msg : String) (store : List Record)
    (pd : List (String × Record)) (c qid : String)
    (hsplit : pySplitWs (pyUpper msg) = [c, qid])
    (hmem : (pd.find? (fun p => p.1 == qid)).isSome = true) :
    handle_conferma msg (some pd) store =
      (if (delete_superquote store qid).1 = true
        then ((.deleted qid : ConfReply), some (pd.eraseP (fun p => p.1 == qid)),
          (delete_superquote store qid).2)
        else (.deleteError, some pd, (delete_superquote store qid).2)) :=
  handle_conferma_pending msg store pd c qid hsplit hmem

/-- Witness for the amended C2: a confirm for a pending id present in the
store deletes it and drops the pending entry. -/
theorem confirm_removes_pending_iff_delete_succeeds_witness :
    handle_conferma "CONFERMA A1B2C3D4" (some [("A1B2C3D4", exStored)]) [exStored] =
      (if (delete_superquote [exStored] "A1B2C3D4").1 = true
        then ((.deleted "A1B2C3D4" : ConfReply),
          some ([("A1B2C3D4", exStored)].eraseP (fun p => p.1 == "A1B2C3D4")),
          (delete_superquote [exStored] "A1B2C3D4").2)
        else (.deleteError, some [("A1B2C3D4", exStored)],
          (delete_superquote [exStored] "A1B2C3D4").2)) :=
  confirm_removes_pending_iff_delete_succeeds "CONFERMA A1B2C3D4" [exStored]
    [("A1B2C3D4", exStored)] "CONFERMA" "A1B2C3D4" (by decide) (by decide)


/-- In a duplicate-free pending dict, erasing the entry for an id leaves
no entry for that id behind. -/
theorem find?_eraseP_self (pd : List (String × Record)) (qid : String)
    (hnodup : (pd.map Prod.fst).Nodup) :
    (pd.eraseP (fun p => p.1 == qid)).find? (fun p => p.1 == qid) = none := by
  induction pd with
  | nil => rfl
  | cons hd tl ih =>
    rw [List.map_cons, List.nodup_cons] at hnodup
    by_cases h : (hd.1 == qid) = true
    · rw [show List.eraseP (fun p => p.1 == qid) (hd :: tl) = tl from by
        simp [List.eraseP_cons, h]]
      rw [List.find?_eq_none]
      intro x hx hpx
      apply hnodup.1
      rw [List.mem_map]
      refine ⟨x, hx, ?_⟩
      have h1 : hd.1 = qid := by simpa using h
      have h2 : x.1 = qid := by simpa using hpx
      rw [h2, h1]
    · rw [show List.eraseP (fun p => p.1 == qid) (hd :: tl) =
          hd :: List.eraseP (fun p => p.1 == qid) tl from by
        simp [List.eraseP_cons, h]]
      rw [show List.find? (fun p => p.1 == qid)
          (hd :: List.eraseP (fun p => p.1 == qid) tl) =
          List.find? (fun p => p.1 == qid) (List.eraseP (fun p => p.1 == qid) tl) from by
        simp [List.find?_cons, h]]
      exact ih hnodup.2

/-- C7: a confirm for an id with no pending request fails with a
confirmation error and leaves the store untouched (also when the chat has
no pending dict at all); after a successful confirm the pending entry is
gone, so a second confirm for the same id fails with a confirmation error
and leaves the store untouched: the record is not double-deleted. -/
theorem confirm_requires_pending (msg : String) (store : List Record)
    (pd : List (String × Record)) (c qid : String)
    (hsplit : pySplitWs (pyUpper msg) = [c, qid])
    (hnodup : (pd.map Prod.fst).Nodup) :
    (pd.find? (fun p => p.1 == qid) = none →
      handle_conferma msg (some pd) store = (.invalidOrExpired, some pd, store)) ∧
    handle_conferma msg none store = (.invalidFormat, none, store) ∧
    ((pd.find? (fun p => p.1 == qid)).isSome = true →
      (delete_superquote store qid).1 = true →
      handle_conferma msg (some pd) store =
        (.deleted qid, some (pd.eraseP (fun p => p.1 == qid)),
          (delete_superquote store qid).2) ∧
      handle_conferma msg (some (pd.eraseP (fun p => p.1 == qid)))
          ((delete_superquote store qid).2) =
        (.invalidOrExpired, some (pd.eraseP (fun p => p.1 == qid)),
          (delete_superquote store qid).2)) := by
  refine ⟨?_, ?_, ?_⟩
  · intro hnone
    exact handle_conferma_not_pending msg store pd c qid hsplit hnone
  · unfold handle_conferma
    rw [hsplit]
  · intro hmem hdel
    constructor
    · rw [handle_conferma_pending msg store pd c qid hsplit hmem, if_pos hdel]
    · exact handle_conferma_not_pending msg ((delete_superquote store qid).2)
        (pd.eraseP (fun p => p.1 == qid)) c qid hsplit
        (find?_eraseP_self pd qid hnodup)

/-- Witness for C7: concrete confirm scenarios over a one-record store:
no pending entry, no pending dict, a successful confirm, and the repeated
confirm after it. -/
theorem confirm_requires_pending_witness :
    handle_conferma "CONFERMA A1B2C3D4" (some []) [exStored] =
      (.invalidOrExpired, some [], [exStored]) ∧
    handle_conferma "CONFERMA A1B2C3D4" none [exStored] = (.invalidFormat, none, [exStored]) ∧
    handle_conferma "CONFERMA A1B2C3D4" (some [("A1B2C3D4", exStored)]) [exStored] =
      (.deleted "A1B2C3D4", some [], []) ∧
    handle_conferma "CONFERMA A1B2C3D4" (some []) [] = (.invalidOrExpired, some [], []) := by
  have t1 := confirm_requires_pending "CONFERMA A1B2C3D4" [exStored]
    [("A1B2C3D4", exStored)] "CONFERMA" "A1B2C3D4" (by decide) (by simp)
  have t2 := confirm_requires_pending "CONFERMA A1B2C3D4" [exStored] [] "CONFERMA" "A1B2C3D4"
    (by decide) (by simp)
  refine ⟨t2.1 rfl, t1.2.1, ?_, ?_⟩
  · exact (t1.2.2 (by decide) (by decide)).1
  · exact (t1.2.2 (by decide) (by decide)).2

/-- Inserting a record permutes to consing it. -/
theorem insertByDataAsc_perm (r : Record) (l : List Record) :
    (insertByDataAsc r l).Perm (r :: l) := by
  induction l with
  | nil => exact List.Perm.refl _
  | cons x xs ih =>
    unfold insertByDataAsc
    split
    · exact (ih.cons x).trans (List.Perm.swap r x xs)
    · exact List.Perm.refl _

/-- The ascending stable sort permutes its input. -/
theorem sortByDataAsc_perm (l : List Record) : (sortByDataAsc l).Perm l := by
  induction l with
  | nil => exact List.Perm.refl _
  | cons x xs ih =>
    unfold sortByDataAsc
    exact (insertByDataAsc_perm x (sortByDataAsc xs)).trans (ih.cons x)

/-- Filtering at the timestamp of the inserted record puts that record in
front: the records it passed on the way in all carry strictly smaller
timestamps. -/
theorem filter_insertByDataAsc_eq (r : Record) (l : List Record) :
    (insertByDataAsc r l).filter (fun x => x.data == r.data) =
      r :: l.filter (fun x => x.data == r.data) := by
  induction l with
  | nil => simp [insertByDataAsc, List.filter]
  | cons x xs ih =>
    unfold insertByDataAsc
    split
    · rename_i hlt
      have hx : (x.data == r.data) = false := by
        simp only [beq_eq_false_iff_ne]
        omega
      rw [List.filter_cons, hx]
      rw [List.filter_cons, hx]
      simpa using ih
    · rw [List.filter_cons]
      simp

/-- Filtering at any other timestamp ignores the inserted record. -/
theorem filter_insertByDataAsc_ne (r : Record) (l : List Record) (t : Nat)
    (h : t ≠ r.data) :
    (insertByDataAsc r l).filter (fun x => x.data == t) =
      l.filter (fun x => x.data == t) := by
  have hr : (r.data == t) = false := by
    simp only [beq_eq_false_iff_ne]
    omega
  induction l with
  | nil => simp [insertByDataAsc, List.filter, hr]
  | cons x xs ih =>
    unfold insertByDataAsc
    split
    · rw [List.filter_cons, List.filter_cons]
      cases hx : (x.data == t) <;> simp [ih]
    · rw [List.filter_cons, hr]
      simp

/-- Stability of the ascending sort: per-timestamp sublists are
preserved. -/
theorem filter_sortByDataAsc (l : List Record) (t : Nat) :
    (sortByDataAsc l).filter (fun x => x.data == t) = l.filter (fun x => x.data == t) := by
  induction l with
  | nil => rfl
  | cons x xs ih =>
    unfold sortByDataAsc
    by_cases ht : t = x.data
    · subst ht
      rw [filter_insertByDataAsc_eq, ih, List.filter_cons]
      simp
    · rw [filter_insertByDataAsc_ne _ _ _ ht, ih, List.filter_cons]
      have hx : (x.data == t) = false := by
        simp only [beq_eq_false_iff_ne]
        omega
      rw [hx]
      simp

/-- Inserting into an ascending-sorted list keeps it sorted. -/
theorem sorted_insertByDataAsc (r : Record) (l : List Record)
    (h : l.Pairwise (fun a b => a.data ≤ b.data)) :
    (insertByDataAsc r l).Pairwise (fun a b => a.data ≤ b.data) := by
  induction l with
  | nil => simp [insertByDataAsc]
  | cons x xs ih =>
    rw [List.pairwise_cons] at h
    unfold insertByDataAsc
    split
    · rename_i hlt
      rw [List.pairwise_cons]
      refine ⟨?_, ih h.2⟩
      intro b hb
      have hmem : b ∈ r :: xs := (insertByDataAsc_perm r xs).subset hb
      rcases List.mem_cons.mp hmem with hb1 | hb2
      · subst hb1
        omega
      · exact h.1 b hb2
    · rename_i hge
      rw [List.pairwise_cons]
      refine ⟨?_, List.pairwise_cons.mpr h⟩
      intro b hb
      rcases List.mem_cons.mp hb with hb1 | hb2
      · subst hb1
        omega
      · have := h.1 b hb2
        omega

/-- The ascending stable sort is sorted. -/
theorem sorted_sortByDataAsc (l : List Record) :
    (sortByDataAsc l).Pairwise (fun a b => a.data ≤ b.data) := by
  induction l with
  | nil => simp [sortByDataAsc]
  | cons x xs ih =>
    unfold sortByDataAsc
    exact sorted_insertByDataAsc x (sortByDataAsc xs) ih

/-- Two sorted lists that are permutations of one another and agree on
every per-timestamp sublist are equal: a sorted stable arrangement is
unique. -/
theorem sorted_eq_of_perm_of_filter_eq (s₁ : List Record) :
    ∀ s₂ : List Record, s₁.Pairwise (fun a b => a.data ≤ b.data) →
      s₂.Pairwise (fun a b => a.data ≤ b.data) → s₁.Perm s₂ →
      (∀ t, s₁.filter (fun x => x.data == t) = s₂.filter (fun x => x.data == t)) →
      s₁ = s₂ := by
  induction s₁ with
  | nil =>
    intro s₂ _ _ hp _
    exact (List.Perm.eq_nil hp.symm).symm
  | cons a t₁ ih =>
    intro s₂ h₁ h₂ hp hf
    cases s₂ with
    | nil => exact absurd (List.Perm.eq_nil hp) (by simp)
    | cons b t₂ =>
      have hab : a.data = b.data := by
        have ha2 : a ∈ b :: t₂ := hp.subset (List.mem_cons_self a t₁)
        have hb1 : b ∈ a :: t₁ := hp.symm.subset (List.mem_cons_self b t₂)
        rcases List.mem_cons.mp ha2 with h | h
        · rw [h]
        · rcases List.mem_cons.mp hb1 with h' | h'
          · rw [h']
          · have hba : b.data ≤ a.data := (List.pairwise_cons.mp h₂).1 a h
            have hab2 : a.data ≤ b.data := (List.pairwise_cons.mp h₁).1 b h'
            omega
      have hfa := hf a.data
      rw [List.filter_cons, List.filter_cons] at hfa
      have e1 : (a.data == a.data) = true := by simp
      have e2 : (b.data == a.data) = true := by
        rw [hab]
        simp
      rw [e1, e2] at hfa
      simp only [if_true] at hfa
      have hhead : a = b := (List.cons.injEq _ _ _ _ ▸ hfa).1
      subst hhead
      have htail : t₁ = t₂ := by
        apply ih t₂ (List.pairwise_cons.mp h₁).2 (List.pairwise_cons.mp h₂).2 hp.cons_inv
        intro t
        by_cases ht : t = a.data
        · subst ht
          exact (List.cons.injEq _ _ _ _ ▸ hfa).2
        · have hft := hf t
          rw [List.filter_cons, List.filter_cons] at hft
          have e3 : (a.data == t) = false := by
            simp only [beq_eq_false_iff_ne]
            omega
          rw [e3] at hft
          simpa using hft
      rw [htail]

/-- C3: the running-balance series is computed by stably sorting the
records ascending by timestamp and scanning from balance zero, stepping
by net winnings on won tickets and by minus the stake otherwise; it is
invariant under any shuffling of the input order that preserves the
relative order of records sharing a timestamp (the stable tiebreak). -/
theorem profitSeries_shuffle_invariant (l₁ l₂ : List Record)
    (hperm : l₁.Perm l₂)
    (hties : ∀ t, l₁.filter (fun r => r.data == t) = l₂.filter (fun r => r.data == t)) :
    profitSeries l₁ = profitSeries l₂ ∧
    profitSeries l₁ = seriesFrom 0 (sortByDataAsc l₁) ∧
    (sortByDataAsc l₁).Pairwise (fun a b => a.data ≤ b.data) ∧
    (sortByDataAsc l₁).Perm l₁ := by
  have hsort : sortByDataAsc l₁ = sortByDataAsc l₂ := by
    apply sorted_eq_of_perm_of_filter_eq
    · exact sorted_sortByDataAsc l₁
    · exact sorted_sortByDataAsc l₂
    · exact (sortByDataAsc_perm l₁).trans (hperm.trans (sortByDataAsc_perm l₂).symm)
    · intro t
      rw [filter_sortByDataAsc, filter_sortByDataAsc]
      exact hties t
  exact ⟨by rw [profitSeries, hsort]; rfl, rfl, sorted_sortByDataAsc l₁, sortByDataAsc_perm l₁⟩

/-- Witness for C3: a tied-timestamp shuffle that keeps the relative
order of the records sharing timestamp 1 leaves the series unchanged. -/
theorem profitSeries_shuffle_invariant_witness :
    profitSeries [serA, serB, serC] = profitSeries [serB, serA, serC] ∧
    profitSeries [serA, serB, serC] = seriesFrom 0 (sortByDataAsc [serA, serB, serC]) ∧
    (sortByDataAsc [serA, serB, serC]).Pairwise (fun a b => a.data ≤ b.data) ∧
    (sortByDataAsc [serA, serB, serC]).Perm [serA, serB, serC] :=
  profitSeries_shuffle_invariant [serA, serB, serC] [serB, serA, serC]
    (List.Perm.swap serB serA [serC])
    (by
      intro t
      by_cases h1 : t = 1
      · subst h1
        rfl
      · by_cases h2 : t = 2
        · subst h2
          rfl
        · have e1 : ((1 : Nat) == t) = false := by
            simp only [beq_eq_false_iff_ne]
            omega
          have e2 : ((2 : Nat) == t) = false := by
            simp only [beq_eq_false_iff_ne]
            omega
          simp [serA, serB, serC, List.filter_cons, e1, e2])

/-- Descending insertion permutes to consing. -/
theorem insertByDataDesc_perm (r : Record) (l : List Record) :
    (insertByDataDesc r l).Perm (r :: l) := by
  induction l with
  | nil => exact List.Perm.refl _
  | cons x xs ih =>
    unfold insertByDataDesc
    split
    · exact (ih.cons x).trans (List.Perm.swap r x xs)
    · exact List.Perm.refl _

/-- The descending stable sort permutes its input. -/
theorem sortByDataDesc_perm (l : List Record) : (sortByDataDesc l).Perm l := by
  induction l with
  | nil => exact List.Perm.refl _
  | cons x xs ih =>
    unfold sortByDataDesc
    exact (insertByDataDesc_perm x (sortByDataDesc xs)).trans (ih.cons x)

/-- Inserting a record into copies of itself just adds a copy. -/
theorem insertByDataDesc_replicate (r : Record) (k : Nat) :
    insertByDataDesc r (List.replicate k r) = List.replicate (k + 1) r := by
  cases k with
  | zero => rfl
  | succ k =>
    rw [List.replicate_succ]
    unfold insertByDataDesc
    rw [if_neg (by omega)]
    rfl

/-- Sorting copies of one record is the identity. -/
theorem sortByDataDesc_replicate (r : Record) (k : Nat) :
    sortByDataDesc (List.replicate k r) = List.replicate k r := by
  induction k with
  | zero => rfl
  | succ k ih =>
    rw [List.replicate_succ]
    unfold sortByDataDesc
    rw [ih, insertByDataDesc_replicate, List.replicate_succ]

/-- C8 counterexample: on a store of 1001 identical unit-stake records
the balance engine sums only the 1000 records the capped read returns,
so its total stake undercounts the sum of stakes over all records. -/
theorem calculate_balance_truncates :
    (calculate_balance (.ok (List.replicate 1001 capRec))).total_bet = 1000 ∧
    ((List.replicate 1001 capRec).map (fun sq => sq.importo)).sum = 1001 ∧
    (calculate_balance (.ok (List.replicate 1001 capRec))).total_bet ≠
      ((List.replicate 1001 capRec).map (fun sq => sq.importo)).sum := by
  have h1 : (calculate_balance (.ok (List.replicate 1001 capRec))).total_bet = 1000 := by
    simp only [calculate_balance, get_all_superquotes, sortByDataDesc_replicate,
      List.take_replicate, calcBalanceOn, List.map_replicate, List.sum_replicate,
      nsmul_eq_mul]
    norm_num [capRec]
  have h2 : ((List.replicate 1001 capRec).map (fun sq => sq.importo)).sum = 1001 := by
    simp only [List.map_replicate, List.sum_replicate, nsmul_eq_mul]
    norm_num [capRec]
  refine ⟨h1, h2, ?_⟩
  rw [h1, h2]
  norm_num

/-- C8 amended: for stores of at most 1000 records (the cursor cap of
get_all_superquotes) every record contributes to every aggregate of the
balance snapshot. -/
theorem calculate_balance_complete_upto_cap (store : List Record)
    (hlen : store.length ≤ 1000) :
    (calculate_balance (.ok store)).total_bet = (store.map (fun sq => sq.importo)).sum ∧
    (calculate_balance (.ok store)).total_winnings =
      ((store.filter (fun sq => sq.esito == "VINTA")).map (fun sq => sq.vincita)).sum ∧
    (calculate_balance (.ok store)).wins =
      (store.filter (fun sq => sq.esito == "VINTA")).length ∧
    (calculate_balance (.ok store)).losses =
      (store.filter (fun sq => sq.esito == "PERSA")).length ∧
    (calculate_balance (.ok store)).total_bets = store.length := by
  have hperm : (sortByDataDesc store).Perm store := sortByDataDesc_perm store
  have htake : (sortByDataDesc store).take 1000 = sortByDataDesc store :=
    List.take_of_length_le (by rw [hperm.length_eq]; exact hlen)
  refine ⟨?_, ?_, ?_, ?_, ?_⟩
  · show (((sortByDataDesc store).take 1000).map (fun sq => sq.importo)).sum = _
    rw [htake]
    exact (hperm.map (fun sq => sq.importo)).sum_eq
  · show ((((sortByDataDesc store).take 1000).filter (fun sq => sq.esito == "VINTA")).map
      (fun sq => sq.vincita)).sum = _
    rw [htake]
    exact ((hperm.filter (fun sq => sq.esito == "VINTA")).map (fun sq => sq.vincita)).sum_eq
  · show (((sortByDataDesc store).take 1000).filter (fun sq => sq.esito == "VINTA")).length = _
    rw [htake]
    exact (hperm.filter (fun sq => sq.esito == "VINTA")).length_eq
  · show (((sortByDataDesc store).take 1000).filter (fun sq => sq.esito == "PERSA")).length = _
    rw [htake]
    exact (hperm.filter (fun sq => sq.esito == "PERSA")).length_eq
  · show ((sortByDataDesc store).take 1000).length = _
    rw [htake]
    exact hperm.length_eq

/-- Witness for the amended C8 on the two worked example records. -/
theorem calculate_balance_complete_upto_cap_witness :
    (calculate_balance (.ok [exWon, exLost])).total_bet =
      ([exWon, exLost].map (fun sq => sq.importo)).sum ∧
    (calculate_balance (.ok [exWon, exLost])).total_winnings =
      (([exWon, exLost].filter (fun sq => sq.esito == "VINTA")).map
        (fun sq => sq.vincita)).sum ∧
    (calculate_balance (.ok [exWon, exLost])).wins =
      ([exWon, exLost].filter (fun sq => sq.esito == "VINTA")).length ∧
    (calculate_balance (.ok [exWon, exLost])).losses =
      ([exWon, exLost].filter (fun sq => sq.esito == "PERSA")).length ∧
    (calculate_balance (.ok [exWon, exLost])).total_bets = [exWon, exLost].length :=
  calculate_balance_complete_upto_cap [exWon, exLost] (by norm_num)
